import Mathlib

/-!
Verification of the GitHub App token-resolution and content-mutation service.

The development shallowly embeds the two Python modules
`github_client_factory.py` and `github_service.py`:

* pure validation logic (`AppConfiguration.__init__`) becomes a total
  function returning `Except`;
* every network call made through the PyGithub client is a request to an
  environment; service methods are functions of that environment which
  also return the list of requests they issued, so ordering and
  never-called properties are provable;
* the low-level Git-plumbing write is additionally run against a small
  state-machine model of GitHub's Git data API (blobs, trees, commits,
  refs with fast-forward-only updates) to settle chain-integrity claims.

Machine integers do not occur; object identifiers are modelled as `Nat`,
strings as `String`.
-/

namespace SampleMCP

/-- Equality on `Except` outcomes is decidable when it is on both
components; used to evaluate runs on concrete inputs. -/
instance instDecidableEqExcept {ε α : Type} [DecidableEq ε] [DecidableEq α] :
    DecidableEq (Except ε α) := fun x y =>
  match x, y with
  | .error a, .error b =>
      if h : a = b then .isTrue (congrArg Except.error h)
      else .isFalse (fun hc => h (Except.error.inj hc))
  | .ok a, .ok b =>
      if h : a = b then .isTrue (congrArg Except.ok h)
      else .isFalse (fun hc => h (Except.ok.inj hc))
  | .error _, .ok _ => .isFalse (fun hc => Except.noConfusion hc)
  | .ok _, .error _ => .isFalse (fun hc => Except.noConfusion hc)

/-! ## Python truthiness -/

/-- Python truthiness of an `Optional[str]`: `None` and `""` are falsy. -/
def pyTruthyStr : Option String → Bool
  | some s => s ≠ ""
  | none => false

/-- Python truthiness of an `Optional[int]`: `None` and `0` are falsy. -/
def pyTruthyNat : Option Nat → Bool
  | some n => n ≠ 0
  | none => false

/-- Python `a or b` on optional strings: yields `a` when `a` is truthy,
otherwise `b`. -/
def pyOr (a b : Option String) : Option String :=
  if pyTruthyStr a then a else b

/-- Python `str.lower()`, modelled character-wise (agrees with CPython on
the ASCII logins and org names at issue). -/
def pyLower (s : String) : String :=
  String.mk (s.data.map Char.toLower)

/-! ## `github_client_factory.py`: AppConfiguration -/

/-- The environment visible through `os.getenv`: each variable is either
unset (`none`) or set to a string (possibly empty). -/
structure FactoryEnv where
  GITHUB_APP_ID : Option String
  GITHUB_APP_NAME : Option String
  GITHUB_APP_PRIVATE_KEY : Option String
  GITHUB_ORG_NAME : Option String
deriving DecidableEq

/-- The four attributes set by `AppConfiguration.__init__` before
validation runs; on successful construction they are all truthy. -/
structure AppConfiguration where
  github_app_id : Option String
  github_app_name : Option String
  github_app_private_key : Option String
  github_org : Option String
deriving DecidableEq

/-- The attribute assignments of `AppConfiguration.__init__`
(lines 40-43): each argument falls back to `os.getenv` via Python `or`. -/
def resolvedConfig (github_app_id github_app_name github_app_private_key github_org : Option String)
    (env : FactoryEnv) : AppConfiguration :=
  { github_app_id := pyOr github_app_id env.GITHUB_APP_ID
    github_app_name := pyOr github_app_name env.GITHUB_APP_NAME
    github_app_private_key := pyOr github_app_private_key env.GITHUB_APP_PRIVATE_KEY
    github_org := pyOr github_org env.GITHUB_ORG_NAME }

/-- The `missing` list built by the four sequential `if not ...` checks
(lines 46-54), in source order. -/
def missingFields (c : AppConfiguration) : List String :=
  (if pyTruthyStr c.github_app_id then [] else ["GITHUB_APP_ID"]) ++
  (if pyTruthyStr c.github_app_name then [] else ["GITHUB_APP_NAME"]) ++
  (if pyTruthyStr c.github_app_private_key then [] else ["GITHUB_APP_PRIVATE_KEY"]) ++
  (if pyTruthyStr c.github_org then [] else ["GITHUB_ORG_NAME"])

/-- The `ValueError` message raised when fields are missing (lines 57-60). -/
def configurationErrorMessage (missing : List String) : String :=
  "Missing required configuration: " ++ String.intercalate ", " missing ++
    ". Please provide as parameters or set environment variables."

/-- `AppConfiguration.__init__`: resolve each field, collect missing
field names, raise (return `.error`) listing them all, else succeed. -/
def AppConfiguration.construct
    (github_app_id github_app_name github_app_private_key github_org : Option String)
    (env : FactoryEnv) : Except String AppConfiguration :=
  let c := resolvedConfig github_app_id github_app_name github_app_private_key github_org env
  let missing := missingFields c
  if missing ≠ [] then
    .error (configurationErrorMessage missing)
  else
    .ok c

/-- `AppConfiguration.from_env()`: construction with no explicit
parameters. -/
def AppConfiguration.from_env (env : FactoryEnv) : Except String AppConfiguration :=
  AppConfiguration.construct none none none none env

/-! ## `github_client_factory.py`: GitHubClientFactory -/

/-- One installation as returned by `get_installations()`: its numeric id
and its `account.login`. -/
structure Installation where
  id : Nat
  login : String
deriving DecidableEq

/-- Errors raised by the factory's token resolution. The source raises
`ValueError(f"No installation found for organization: {org}")`; the spec
names this condition `InstallationNotFoundError{org}`. -/
inductive FactoryError
  | installationNotFound (org : String)
deriving DecidableEq

/-- The App-integration endpoint as seen by the factory: the drained
installation listing and the token-exchange endpoint. -/
structure IntegrationEnv where
  installations : List Installation
  accessToken : Nat → String

/-- The loop predicate of `_get_installation_token_sync` (line 133):
`inst.account.login.lower() == config.github_org.lower()`. -/
def installationMatches (org : String) (inst : Installation) : Bool :=
  pyLower inst.login == pyLower org

/-- `_get_installation_token_sync` (lines 118-145): scan installations in
listing order, break at the first match, raise when none matches,
otherwise exchange the matched installation's id for a token. -/
def getInstallationTokenSync (org : String) (env : IntegrationEnv) :
    Except FactoryError String :=
  match env.installations.find? (installationMatches org) with
  | some inst => .ok (env.accessToken inst.id)
  | none => .error (.installationNotFound org)

/-- `_get_installation_token` (lines 109-116): the async variant only
returns the value of the sync one. -/
def getInstallationToken (org : String) (env : IntegrationEnv) :
    Except FactoryError String :=
  getInstallationTokenSync org env

/-- The PyGithub `Github` client as constructed by the factory: it carries
the bearer token passed to `Auth.Token`. -/
structure GithubClient where
  token : String
deriving DecidableEq

/-- `get_app_authenticated_client` (lines 85-95): await the (async) token
resolution, then wrap the token in a client. -/
def get_app_authenticated_client (org : String) (env : IntegrationEnv) :
    Except FactoryError GithubClient :=
  (getInstallationToken org env).map GithubClient.mk

/-- `get_app_authenticated_client_sync` (lines 97-107): resolve the token
synchronously, then wrap it in a client. -/
def get_app_authenticated_client_sync (org : String) (env : IntegrationEnv) :
    Except FactoryError GithubClient :=
  (getInstallationTokenSync org env).map GithubClient.mk

/-! ## Theorems on configuration (C5, C10) -/

/-- `List.find?` returns the first element satisfying the predicate:
if the element at index `k` satisfies `p` and no earlier one does, the
scan yields exactly that element. -/
theorem find?_first_index {α : Type} (p : α → Bool) :
    ∀ (l : List α) (k : Nat) (hk : k < l.length),
      p (l.get ⟨k, hk⟩) = true →
      (∀ j (hj : j < k), p (l.get ⟨j, Nat.lt_trans hj hk⟩) = false) →
      l.find? p = some (l.get ⟨k, hk⟩) := by
  intro l
  induction l with
  | nil => intro k hk; exact absurd hk (Nat.not_lt_zero k)
  | cons a l ih =>
    intro k hk hp hbefore
    cases k with
    | zero =>
      have hpa : p a = true := by simpa using hp
      simp [List.find?_cons_of_pos _ hpa]
    | succ k =>
      have ha : p a = false := by
        have := hbefore 0 (Nat.succ_pos k)
        simpa using this
      have hk' : k < l.length := Nat.lt_of_succ_lt_succ hk
      have hrec := ih k hk' (by simpa using hp)
        (by
          intro j hj
          have := hbefore (j + 1) (Nat.succ_lt_succ hj)
          simpa using this)
      simp [List.find?, ha, hrec]

/-- C5: configuration validation is atomic and exhaustive. With the four
resolved fields `c`, construction succeeds exposing exactly `c` when no
field is missing; otherwise it fails with the message enumerating the
missing list; a name is in that list exactly when the corresponding
resolved field is falsy, and the list is nonempty exactly when at least
one field is falsy. -/
theorem appConfiguration_atomic_validation
    (a1 a2 a3 a4 : Option String) (env : FactoryEnv) :
    (missingFields (resolvedConfig a1 a2 a3 a4 env) = [] →
      AppConfiguration.construct a1 a2 a3 a4 env = .ok (resolvedConfig a1 a2 a3 a4 env)) ∧
    (missingFields (resolvedConfig a1 a2 a3 a4 env) ≠ [] →
      AppConfiguration.construct a1 a2 a3 a4 env =
        .error (configurationErrorMessage (missingFields (resolvedConfig a1 a2 a3 a4 env)))) ∧
    (("GITHUB_APP_ID" ∈ missingFields (resolvedConfig a1 a2 a3 a4 env) ↔
        ¬ pyTruthyStr (resolvedConfig a1 a2 a3 a4 env).github_app_id = true) ∧
     ("GITHUB_APP_NAME" ∈ missingFields (resolvedConfig a1 a2 a3 a4 env) ↔
        ¬ pyTruthyStr (resolvedConfig a1 a2 a3 a4 env).github_app_name = true) ∧
     ("GITHUB_APP_PRIVATE_KEY" ∈ missingFields (resolvedConfig a1 a2 a3 a4 env) ↔
        ¬ pyTruthyStr (resolvedConfig a1 a2 a3 a4 env).github_app_private_key = true) ∧
     ("GITHUB_ORG_NAME" ∈ missingFields (resolvedConfig a1 a2 a3 a4 env) ↔
        ¬ pyTruthyStr (resolvedConfig a1 a2 a3 a4 env).github_org = true)) ∧
    (missingFields (resolvedConfig a1 a2 a3 a4 env) ≠ [] ↔
      (¬ pyTruthyStr (resolvedConfig a1 a2 a3 a4 env).github_app_id = true ∨
       ¬ pyTruthyStr (resolvedConfig a1 a2 a3 a4 env).github_app_name = true ∨
       ¬ pyTruthyStr (resolvedConfig a1 a2 a3 a4 env).github_app_private_key = true ∨
       ¬ pyTruthyStr (resolvedConfig a1 a2 a3 a4 env).github_org = true)) := by
  set c := resolvedConfig a1 a2 a3 a4 env with hc
  refine ⟨?_, ?_, ?_, ?_⟩
  · intro h
    simp [AppConfiguration.construct, hc.symm, h]
  · intro h
    simp [AppConfiguration.construct, hc.symm, h]
  · unfold missingFields
    rcases h1 : pyTruthyStr c.github_app_id <;>
      rcases h2 : pyTruthyStr c.github_app_name <;>
        rcases h3 : pyTruthyStr c.github_app_private_key <;>
          rcases h4 : pyTruthyStr c.github_org <;> simp
  · unfold missingFields
    rcases h1 : pyTruthyStr c.github_app_id <;>
      rcases h2 : pyTruthyStr c.github_app_name <;>
        rcases h3 : pyTruthyStr c.github_app_private_key <;>
          rcases h4 : pyTruthyStr c.github_org <;> simp

/-- Witness for C5 at a concrete input: one parameter given, nothing in
the environment, so three fields are missing and all three are named. -/
theorem appConfiguration_atomic_validation_witness :
    missingFields (resolvedConfig (some "123") none none none ⟨none, none, none, none⟩) ≠ [] ∧
    AppConfiguration.construct (some "123") none none none ⟨none, none, none, none⟩ =
      .error (configurationErrorMessage
        ["GITHUB_APP_NAME", "GITHUB_APP_PRIVATE_KEY", "GITHUB_ORG_NAME"]) := by
  refine ⟨by decide, ?_⟩
  have h := (appConfiguration_atomic_validation (some "123") none none none
      ⟨none, none, none, none⟩).2.1 (by decide)
  simpa using h

/-- C10: an empty-string constructor argument behaves exactly like an
absent one — for each of the four parameters, construction with `some ""`
in that position equals construction with `none` there, over every
environment and every choice of the other arguments. -/
theorem appConfiguration_empty_string_is_absent
    (env : FactoryEnv) (b c d : Option String) :
    AppConfiguration.construct (some "") b c d env =
      AppConfiguration.construct none b c d env ∧
    AppConfiguration.construct b (some "") c d env =
      AppConfiguration.construct b none c d env ∧
    AppConfiguration.construct b c (some "") d env =
      AppConfiguration.construct b c none d env ∧
    AppConfiguration.construct b c d (some "") env =
      AppConfiguration.construct b c d none env := by
  have h : ∀ e : Option String, pyOr (some "") e = pyOr none e := by
    intro e; simp [pyOr, pyTruthyStr]
  refine ⟨?_, ?_, ?_, ?_⟩ <;>
    simp [AppConfiguration.construct, resolvedConfig, h]

/-! ## Theorems on the factory (C6, C7) -/

/-- C6: installation matching is case-insensitive and takes the first
match in listing order; when no installation's login matches the org
(even if others exist), token resolution fails with the
installation-not-found error carrying the org name. -/
theorem installation_matching_first_case_insensitive
    (org : String) (env : IntegrationEnv) :
    (∀ k (hk : k < env.installations.length),
      pyLower (env.installations.get ⟨k, hk⟩).login = pyLower org →
      (∀ j (hj : j < k),
        pyLower (env.installations.get ⟨j, Nat.lt_trans hj hk⟩).login ≠ pyLower org) →
      getInstallationTokenSync org env =
        .ok (env.accessToken (env.installations.get ⟨k, hk⟩).id)) ∧
    ((∀ inst ∈ env.installations, pyLower inst.login ≠ pyLower org) →
      getInstallationTokenSync org env = .error (.installationNotFound org)) := by
  constructor
  · intro k hk hmatch hbefore
    have hfind := find?_first_index (installationMatches org) env.installations k hk
      (by simpa [installationMatches] using hmatch)
      (by intro j hj; simpa [installationMatches] using hbefore j hj)
    simp [getInstallationTokenSync, hfind]
  · intro hnone
    have hfind : env.installations.find? (installationMatches org) = none := by
      rw [List.find?_eq_none]
      intro inst hmem
      simpa [installationMatches] using hnone inst hmem
    simp [getInstallationTokenSync, hfind]

/-- Witness for C6: org `"Acme"` skips a non-matching installation and
matches login `"acme"` (id 2) first, ignoring a later `"ACME"`; and with
no matching login among existing installations the lookup fails carrying
the org. -/
theorem installation_matching_first_case_insensitive_witness :
    getInstallationTokenSync "Acme"
      ⟨[⟨1, "other"⟩, ⟨2, "acme"⟩, ⟨3, "ACME"⟩], fun i => "tok" ++ toString i⟩ =
      .ok "tok2" ∧
    getInstallationTokenSync "Acme" ⟨[⟨1, "other"⟩], fun i => "tok" ++ toString i⟩ =
      .error (.installationNotFound "Acme") := by
  constructor
  · have h := (installation_matching_first_case_insensitive "Acme"
      ⟨[⟨1, "other"⟩, ⟨2, "acme"⟩, ⟨3, "ACME"⟩], fun i => "tok" ++ toString i⟩).1
      1 (by decide) (by decide)
      (by
        intro j hj
        interval_cases j
        show pyLower "other" ≠ pyLower "Acme"
        decide)
    simpa using h
  · exact (installation_matching_first_case_insensitive "Acme"
      ⟨[⟨1, "other"⟩], fun i => "tok" ++ toString i⟩).2
      (by intro inst hmem; simp at hmem; subst hmem; decide)

/-- C7: the asynchronous and synchronous client-acquisition entry points
are behaviorally identical on every configuration and installation
listing: same match, same token, same errors. -/
theorem async_sync_clients_identical (org : String) (env : IntegrationEnv) :
    get_app_authenticated_client org env = get_app_authenticated_client_sync org env := by
  rfl

/-! ## `github_service.py`: read operations with a result cap -/

/-- An issue as yielded by the paginated listings; its payload is opaque
to the capping logic. -/
structure Issue where
  num : Nat
deriving DecidableEq

/-- A repository as yielded by `get_repos()`. -/
structure Repository where
  num : Nat
deriving DecidableEq

/-- A pull request as yielded by `get_pulls(...)`. -/
structure PullRequest where
  num : Nat
deriving DecidableEq

/-- `search_issues` (lines 190-206): fetch the result stream for the
query, then `if max_results: return list(issues[:max_results])`. -/
def search_issues (client_search : String → List Issue) (query : String)
    (max_results : Option Nat) : List Issue :=
  let issues := client_search query
  if pyTruthyNat max_results then issues.take (max_results.getD 0) else issues

/-- `list_organization_repos` (lines 48-65): fetch the org's repo
stream, then `if max_repos: return list(repos[:max_repos])`. -/
def list_organization_repos (org_repos : String → List Repository) (org_name : String)
    (max_repos : Option Nat) : List Repository :=
  let repos := org_repos org_name
  if pyTruthyNat max_repos then repos.take (max_repos.getD 0) else repos

/-- `get_open_issues` (lines 67-84): fetch `get_issues(state='open')` for
the repository, then `if max_issues: return list(issues[:max_issues])`. -/
def get_open_issues (repo_issues : String → String → String → List Issue)
    (owner repo_name : String) (max_issues : Option Nat) : List Issue :=
  let issues := repo_issues owner repo_name "open"
  if pyTruthyNat max_issues then issues.take (max_issues.getD 0) else issues

/-- `get_pull_requests` (lines 107-126): fetch `get_pulls(state=state)`,
then `if max_prs: return list(pulls[:max_prs])`. -/
def get_pull_requests (repo_pulls : String → String → String → List PullRequest)
    (owner repo_name state : String) (max_prs : Option Nat) : List PullRequest :=
  let pulls := repo_pulls owner repo_name state
  if pyTruthyNat max_prs then pulls.take (max_prs.getD 0) else pulls

/-! ## Theorems on result capping (C9) -/

/-- C9 counterexample: a supplied cap of `0` is falsy in Python, so
`search_issues` with `max_results = 0` returns the full two-element
stream — more than the supplied cap allows. -/
theorem result_capping_zero_cap_counterexample :
    ¬ (search_issues (fun _ => [⟨0⟩, ⟨1⟩]) "q" (some 0)).length ≤ 0 := by
  decide

/-- C9 (amended): for every supplied nonzero cap each of the four capped
reads returns the truncation (`take`) of its paginated stream, hence at
most `n` elements; a supplied cap of `0` is treated as no cap and yields
the full stream. -/
theorem result_capping_truncates
    (client_search : String → List Issue) (org_repos : String → List Repository)
    (repo_issues : String → String → String → List Issue)
    (repo_pulls : String → String → String → List PullRequest)
    (query org_name owner repo_name state : String) (n : Nat) (hn : n ≠ 0) :
    (search_issues client_search query (some n) = (client_search query).take n ∧
     (search_issues client_search query (some n)).length ≤ n ∧
     search_issues client_search query (some 0) = client_search query) ∧
    (list_organization_repos org_repos org_name (some n) = (org_repos org_name).take n ∧
     (list_organization_repos org_repos org_name (some n)).length ≤ n ∧
     list_organization_repos org_repos org_name (some 0) = org_repos org_name) ∧
    (get_open_issues repo_issues owner repo_name (some n) =
        (repo_issues owner repo_name "open").take n ∧
     (get_open_issues repo_issues owner repo_name (some n)).length ≤ n ∧
     get_open_issues repo_issues owner repo_name (some 0) = repo_issues owner repo_name "open") ∧
    (get_pull_requests repo_pulls owner repo_name state (some n) =
        (repo_pulls owner repo_name state).take n ∧
     (get_pull_requests repo_pulls owner repo_name state (some n)).length ≤ n ∧
     get_pull_requests repo_pulls owner repo_name state (some 0) =
        repo_pulls owner repo_name state) := by
  refine ⟨⟨?_, ?_, ?_⟩, ⟨?_, ?_, ?_⟩, ⟨?_, ?_, ?_⟩, ⟨?_, ?_, ?_⟩⟩ <;>
    simp [search_issues, list_organization_repos, get_open_issues, get_pull_requests,
      pyTruthyNat, hn, List.length_take]

/-- Witness for C9 (amended) at cap `1` over a two-element stream. -/
theorem result_capping_truncates_witness :
    (1 : Nat) ≠ 0 ∧
    search_issues (fun _ => [⟨0⟩, ⟨1⟩]) "q" (some 1) = [⟨0⟩] := by
  refine ⟨by decide, ?_⟩
  have h := (result_capping_truncates (fun _ => [⟨0⟩, ⟨1⟩]) (fun _ => [])
    (fun _ _ _ => []) (fun _ _ _ => []) "q" "o" "w" "r" "open" 1 (by decide)).1.1
  simpa using h

/-! ## `github_service.py`: issue state transitions -/

/-- The effectful calls `close_issue` can make on the issue, in program
order. (`get_repository` and `get_issue` are reads and do not affect the
issue.) -/
inductive IssueEvent
  | createComment (body : String)
  | editState (state : String)
deriving DecidableEq

/-- `close_issue` (lines 142-159): `if comment:` post the comment, then
`issue.edit(state='closed')`. The returned list is the sequence of
mutations in the order the source performs them. -/
def close_issue (comment : Option String) : List IssueEvent :=
  (if pyTruthyStr comment then [IssueEvent.createComment (comment.getD "")] else []) ++
  [IssueEvent.editState "closed"]

/-- The externally observable state of an issue: its comment bodies and
its state string. -/
structure IssueState where
  comments : List String
  state : String
deriving DecidableEq

/-- How each mutation changes the observable issue. -/
def applyEvent (s : IssueState) : IssueEvent → IssueState
  | .createComment body => { s with comments := s.comments ++ [body] }
  | .editState st => { s with state := st }

/-- Replay a sequence of mutations on an issue. -/
def runEvents (s : IssueState) (evs : List IssueEvent) : IssueState :=
  evs.foldl applyEvent s

/-! ## Theorem on close-with-comment ordering (C8) -/

/-- C8: closing with a non-empty comment emits exactly the comment
mutation followed by the close mutation, and any reader observing the
issue after any prefix of the two effects never sees it closed without
the comment (for any starting state that is not already closed). -/
theorem close_issue_comment_before_close (c : String) (hc : c ≠ "") :
    close_issue (some c) = [IssueEvent.createComment c, IssueEvent.editState "closed"] ∧
    ∀ (s0 : IssueState), s0.state ≠ "closed" →
      ∀ k, k ≤ (close_issue (some c)).length →
        (runEvents s0 ((close_issue (some c)).take k)).state = "closed" →
        c ∈ (runEvents s0 ((close_issue (some c)).take k)).comments := by
  have htrace : close_issue (some c) =
      [IssueEvent.createComment c, IssueEvent.editState "closed"] := by
    simp [close_issue, pyTruthyStr, hc]
  refine ⟨htrace, ?_⟩
  intro s0 hs0 k hk hclosed
  rw [htrace] at hk hclosed ⊢
  have hk2 : k ≤ 2 := by simpa using hk
  clear hk
  interval_cases k
  · simp [runEvents] at hclosed
    exact absurd hclosed hs0
  · simp [runEvents, applyEvent] at hclosed
    exact absurd hclosed hs0
  · simp [runEvents, applyEvent]

/-- Witness for C8: closing an open issue with comment `"done"` — after
both effects the issue is closed and carries the comment. -/
theorem close_issue_comment_before_close_witness :
    "done" ≠ "" ∧
    "done" ∈ (runEvents ⟨[], "open"⟩ ((close_issue (some "done")).take 2)).comments := by
  refine ⟨by decide, ?_⟩
  exact (close_issue_comment_before_close "done" (by decide)).2
    ⟨[], "open"⟩ (by decide) 2 (by decide) (by decide)

/-! ## `github_service.py`: high-level file writes -/

/-- The Python exceptions in play around the content endpoints.
`fileNotFound` is Python's built-in `FileNotFoundError`; `unknownObject`
is PyGithub's 404 (`UnknownObjectException`); `connectionError` is a
transport failure; `generic` is a plain `Exception(msg)`. -/
inductive PyExc
  | fileNotFound (msg : String)
  | unknownObject (msg : String)
  | connectionError (msg : String)
  | generic (msg : String)
deriving DecidableEq

/-- Python `str(e)`: the exception's message. -/
def PyExc.msg : PyExc → String
  | fileNotFound m => m
  | unknownObject m => m
  | connectionError m => m
  | generic m => m

/-- Whether an exception is Python's `FileNotFoundError`. -/
def PyExc.isFileNotFound : PyExc → Bool
  | fileNotFound _ => true
  | _ => false

/-- The metadata returned by `repo.get_contents(path, ref=branch)`:
the fields the service reads. -/
structure ContentFile where
  sha : String
  path : String
deriving DecidableEq

/-- The commit in the dict returned by `update_file`/`create_file`. -/
structure CommitObj where
  sha : String
deriving DecidableEq

/-- The dict `{'commit': ..., 'content': ...}` returned by
`repo.update_file` and `repo.create_file`. -/
structure WriteEndpointResult where
  commit : CommitObj
  content : ContentFile
deriving DecidableEq

/-- The requests the file-write methods can issue to the repository. -/
inductive RepoReq
  | getContents (path ref : String)
  | updateFile (path message content sha branch : String)
  | createFile (path message content branch : String)
deriving DecidableEq

/-- Whether a request hits a write endpoint (`update_file` or
`create_file`). -/
def RepoReq.isWrite : RepoReq → Bool
  | updateFile _ _ _ _ _ => true
  | createFile _ _ _ _ => true
  | _ => false

/-- The repository's content endpoints as seen by the service: each call
either returns or raises. -/
structure RepoEnv where
  getContents : String → String → Except PyExc ContentFile
  updateFile : String → String → String → String → String → Except PyExc WriteEndpointResult
  createFile : String → String → String → String → Except PyExc WriteEndpointResult

/-- The dict built by `update_file_in_branch` on success. -/
structure FileMutationResult where
  commit_sha : String
  commit_message : String
  file_sha : String
  file_path : String
  branch : String
deriving DecidableEq

/-- The wrapper message of the `except` clause in
`update_file_in_branch` (line 275). -/
def updateFailMessage (file_path branch_name cause : String) : String :=
  "Failed to update file '" ++ file_path ++ "' in branch '" ++ branch_name ++ "': " ++ cause

/-- `update_file_in_branch` (lines 229-275): fetch the file's metadata to
obtain its SHA, submit the update with that SHA, build the result dict
(echoing the caller's message); any exception from either step is caught
and re-raised as a plain `Exception` with the wrapper message. Returns
the outcome together with the requests issued, in order. -/
def update_file_in_branch (env : RepoEnv)
    (file_path file_content commit_message branch_name : String) :
    Except PyExc FileMutationResult × List RepoReq :=
  match env.getContents file_path branch_name with
  | .error e =>
      (.error (.generic (updateFailMessage file_path branch_name e.msg)),
       [RepoReq.getContents file_path branch_name])
  | .ok file_contents =>
      match env.updateFile file_path commit_message file_content file_contents.sha branch_name with
      | .error e =>
          (.error (.generic (updateFailMessage file_path branch_name e.msg)),
           [RepoReq.getContents file_path branch_name,
            RepoReq.updateFile file_path commit_message file_content file_contents.sha branch_name])
      | .ok result =>
          (.ok { commit_sha := result.commit.sha
                 commit_message := commit_message
                 file_sha := result.content.sha
                 file_path := result.content.path
                 branch := branch_name },
           [RepoReq.getContents file_path branch_name,
            RepoReq.updateFile file_path commit_message file_content file_contents.sha branch_name])

/-- The dict built by `create_or_update_file_in_branch`, which
additionally reports which operation occurred. -/
structure CreateOrUpdateResult where
  operation : String
  commit_sha : String
  commit_message : String
  file_sha : String
  file_path : String
  branch : String
deriving DecidableEq

/-- `create_or_update_file_in_branch` (lines 277-333): probe the file
(`try: get_contents ... except: file_sha = None`), record
`operation = 'updated'` on probe success and `'created'` on any probe
failure; then `if file_sha:` route to `update_file` (passing the probed
SHA) else `create_file`; errors of the chosen write endpoint propagate
unwrapped. Returns the outcome together with the requests issued. -/
def create_or_update_file_in_branch (env : RepoEnv)
    (file_path file_content commit_message branch_name : String) :
    Except PyExc CreateOrUpdateResult × List RepoReq :=
  let probe := env.getContents file_path branch_name
  let file_sha : Option String :=
    match probe with
    | .ok file_contents => some file_contents.sha
    | .error _ => none
  let operation : String :=
    match probe with
    | .ok _ => "updated"
    | .error _ => "created"
  if pyTruthyStr file_sha then
    match env.updateFile file_path commit_message file_content
        (file_sha.getD "") branch_name with
    | .error e =>
        (.error e,
         [RepoReq.getContents file_path branch_name,
          RepoReq.updateFile file_path commit_message file_content (file_sha.getD "") branch_name])
    | .ok result =>
        (.ok { operation := operation
               commit_sha := result.commit.sha
               commit_message := commit_message
               file_sha := result.content.sha
               file_path := result.content.path
               branch := branch_name },
         [RepoReq.getContents file_path branch_name,
          RepoReq.updateFile file_path commit_message file_content (file_sha.getD "") branch_name])
  else
    match env.createFile file_path commit_message file_content branch_name with
    | .error e =>
        (.error e,
         [RepoReq.getContents file_path branch_name,
          RepoReq.createFile file_path commit_message file_content branch_name])
    | .ok result =>
        (.ok { operation := operation
               commit_sha := result.commit.sha
               commit_message := commit_message
               file_sha := result.content.sha
               file_path := result.content.path
               branch := branch_name },
         [RepoReq.getContents file_path branch_name,
          RepoReq.createFile file_path commit_message file_content branch_name])

/-! ## Theorems on the high-level writes (C3, C4) -/

/-- A repository in which the probed path does not exist: the metadata
fetch raises PyGithub's 404. -/
def notFoundProbeEnv : RepoEnv :=
  { getContents := fun _ _ => .error (.unknownObject "404")
    updateFile := fun _ _ _ _ _ => .error (.generic "unreachable")
    createFile := fun _ _ _ _ => .error (.generic "unreachable") }

/-- A repository reachable only through a failing transport. -/
def transportFailureEnv : RepoEnv :=
  { getContents := fun _ _ => .error (.connectionError "connection reset")
    updateFile := fun _ _ _ _ _ => .error (.generic "unreachable")
    createFile := fun _ _ _ _ => .error (.generic "unreachable") }

/-- C3 counterexample: on a nonexistent path `update_file_in_branch`
raises a plain wrapped `Exception`, not `FileNotFoundError`; a transport
failure is wrapped into the very same exception type, so the two are not
distinguishable by type. -/
theorem updateFile_error_not_fileNotFound_counterexample :
    (update_file_in_branch notFoundProbeEnv "a.txt" "x" "m" "main").1 =
      .error (.generic "Failed to update file 'a.txt' in branch 'main': 404") ∧
    PyExc.isFileNotFound
      (.generic "Failed to update file 'a.txt' in branch 'main': 404") = false ∧
    (update_file_in_branch transportFailureEnv "a.txt" "x" "m" "main").1 =
      .error (.generic "Failed to update file 'a.txt' in branch 'main': connection reset") := by
  refine ⟨rfl, rfl, rfl⟩

/-- C3 (amended): when the metadata fetch for the path fails with any
exception, `update_file_in_branch` fails with a plain `Exception` whose
message wraps the path, branch and underlying cause (the same shape for
not-found and transport causes, so not distinguishable by type), and no
write endpoint is ever invoked. -/
theorem updateFile_missing_wraps_and_never_writes (env : RepoEnv)
    (file_path file_content commit_message branch_name : String) (e : PyExc)
    (h : env.getContents file_path branch_name = .error e) :
    (update_file_in_branch env file_path file_content commit_message branch_name).1 =
      .error (.generic (updateFailMessage file_path branch_name e.msg)) ∧
    ∀ r ∈ (update_file_in_branch env file_path file_content commit_message branch_name).2,
      r.isWrite = false := by
  constructor
  · simp [update_file_in_branch, h]
  · intro r hr
    simp [update_file_in_branch, h] at hr
    simp [hr, RepoReq.isWrite]

/-- Witness for C3 (amended): the nonexistent-path repository. -/
theorem updateFile_missing_wraps_and_never_writes_witness :
    notFoundProbeEnv.getContents "a.txt" "main" = .error (.unknownObject "404") ∧
    (update_file_in_branch notFoundProbeEnv "a.txt" "x" "m" "main").1 =
      .error (.generic (updateFailMessage "a.txt" "main" "404")) := by
  refine ⟨rfl, ?_⟩
  exact (updateFile_missing_wraps_and_never_writes notFoundProbeEnv
    "a.txt" "x" "m" "main" (.unknownObject "404") rfl).1

/-- A repository whose probe returns metadata carrying an empty SHA. -/
def emptyShaProbeEnv : RepoEnv :=
  { getContents := fun _ _ => .ok ⟨"", "a.txt"⟩
    updateFile := fun _ _ _ _ _ => .error (.generic "unreachable")
    createFile := fun _ _ _ _ => .ok ⟨⟨"c1"⟩, ⟨"s1", "a.txt"⟩⟩ }

/-- C4 counterexample: when the probe succeeds but returns an empty SHA
(falsy in Python), `create_or_update_file_in_branch` reports
`operation = "updated"` yet routes to the create endpoint — the update
endpoint is never called, falsifying "probe succeeds ⇒ performs an
update passing the probed SHA". -/
theorem createOrUpdate_empty_sha_counterexample :
    (create_or_update_file_in_branch emptyShaProbeEnv "a.txt" "x" "m" "main").2 =
      [RepoReq.getContents "a.txt" "main", RepoReq.createFile "a.txt" "m" "x" "main"] ∧
    (create_or_update_file_in_branch emptyShaProbeEnv "a.txt" "x" "m" "main").1 =
      .ok ⟨"updated", "c1", "m", "s1", "a.txt", "main"⟩ := by
  refine ⟨by decide, rfl⟩

/-- C4 (amended): if the probe succeeds with a non-empty SHA the call
performs an update passing exactly that SHA and reports
`operation = "updated"`; if the probe succeeds with an empty (falsy) SHA
it performs a create while still reporting `"updated"`; if the probe
fails for any reason it performs a create and reports `"created"`. -/
theorem createOrUpdate_routing (env : RepoEnv)
    (file_path file_content commit_message branch_name : String) :
    (∀ fc, env.getContents file_path branch_name = .ok fc → fc.sha ≠ "" →
      (create_or_update_file_in_branch env file_path file_content commit_message branch_name).2 =
        [RepoReq.getContents file_path branch_name,
         RepoReq.updateFile file_path commit_message file_content fc.sha branch_name] ∧
      ∀ r, env.updateFile file_path commit_message file_content fc.sha branch_name = .ok r →
        (create_or_update_file_in_branch env file_path file_content commit_message branch_name).1 =
          .ok ⟨"updated", r.commit.sha, commit_message, r.content.sha, r.content.path, branch_name⟩) ∧
    (∀ fc, env.getContents file_path branch_name = .ok fc → fc.sha = "" →
      (create_or_update_file_in_branch env file_path file_content commit_message branch_name).2 =
        [RepoReq.getContents file_path branch_name,
         RepoReq.createFile file_path commit_message file_content branch_name] ∧
      ∀ r, env.createFile file_path commit_message file_content branch_name = .ok r →
        (create_or_update_file_in_branch env file_path file_content commit_message branch_name).1 =
          .ok ⟨"updated", r.commit.sha, commit_message, r.content.sha, r.content.path, branch_name⟩) ∧
    (∀ e, env.getContents file_path branch_name = .error e →
      (create_or_update_file_in_branch env file_path file_content commit_message branch_name).2 =
        [RepoReq.getContents file_path branch_name,
         RepoReq.createFile file_path commit_message file_content branch_name] ∧
      ∀ r, env.createFile file_path commit_message file_content branch_name = .ok r →
        (create_or_update_file_in_branch env file_path file_content commit_message branch_name).1 =
          .ok ⟨"created", r.commit.sha, commit_message, r.content.sha, r.content.path, branch_name⟩) := by
  refine ⟨?_, ?_, ?_⟩
  · intro fc hfc hsha
    constructor
    · rcases hu : env.updateFile file_path commit_message file_content fc.sha branch_name with e | r <;>
        simp [create_or_update_file_in_branch, hfc, pyTruthyStr, hsha, hu]
    · intro r hu
      simp [create_or_update_file_in_branch, hfc, pyTruthyStr, hsha, hu]
  · intro fc hfc hsha
    constructor
    · rcases hcr : env.createFile file_path commit_message file_content branch_name with e | r <;>
        simp [create_or_update_file_in_branch, hfc, pyTruthyStr, hsha, hcr]
    · intro r hcr
      simp [create_or_update_file_in_branch, hfc, pyTruthyStr, hsha, hcr]
  · intro e he
    constructor
    · rcases hcr : env.createFile file_path commit_message file_content branch_name with e' | r <;>
        simp [create_or_update_file_in_branch, he, pyTruthyStr, hcr]
    · intro r hcr
      simp [create_or_update_file_in_branch, he, pyTruthyStr, hcr]

/-- A repository where the probed file exists with a non-empty SHA and
the update endpoint succeeds. -/
def existingFileEnv : RepoEnv :=
  { getContents := fun _ _ => .ok ⟨"oldsha", "a.txt"⟩
    updateFile := fun _ _ _ _ _ => .ok ⟨⟨"c2"⟩, ⟨"s2", "a.txt"⟩⟩
    createFile := fun _ _ _ _ => .error (.generic "unreachable") }

/-- Witness for C4 (amended): an existing file is updated with the
probed SHA and reported as `"updated"`. -/
theorem createOrUpdate_routing_witness :
    existingFileEnv.getContents "a.txt" "main" = .ok ⟨"oldsha", "a.txt"⟩ ∧
    "oldsha" ≠ "" ∧
    (create_or_update_file_in_branch existingFileEnv "a.txt" "x" "m" "main").2 =
      [RepoReq.getContents "a.txt" "main",
       RepoReq.updateFile "a.txt" "m" "x" "oldsha" "main"] := by
  refine ⟨rfl, by decide, ?_⟩
  exact ((createOrUpdate_routing existingFileEnv "a.txt" "x" "m" "main").1
    ⟨"oldsha", "a.txt"⟩ rfl (by decide)).1

/-! ## `github_service.py`: the Git-plumbing write path

`update_file_using_git_api` issues six Git-data calls. It is embedded
generically over an interface `GitApi σ` (each call consumes and
produces a server state `σ`), and the run also returns the list of
issued calls with their responses, so call ordering, call counts and the
force flag of the ref update are provable. A concrete instance
`serverApi` models GitHub's Git data store. -/

/-- One entry of `InputGitTreeElement`: path, mode, object type and the
referenced object id. -/
structure TreeEntry where
  path : String
  mode : String
  type : String
  sha : Nat
deriving DecidableEq

/-- The branch reference: `ref.object.sha` is the commit it points at. -/
structure GitRefObj where
  sha : Nat
deriving DecidableEq

/-- A Git commit object as returned by the Git data API. -/
structure GitCommitObj where
  sha : Nat
  tree : Nat
  parents : List Nat
  message : String
deriving DecidableEq

/-- A created blob: the API hands back its object id. -/
structure GitBlobObj where
  sha : Nat
deriving DecidableEq

/-- A created tree: the API hands back its object id. -/
structure GitTreeObj where
  sha : Nat
deriving DecidableEq

/-- Failures of the Git data API. `referenceConflict` is the rejection
of a non-fast-forward reference update. -/
inductive GitErr
  | refNotFound (name : String)
  | commitNotFound (sha : Nat)
  | treeNotFound (sha : Nat)
  | referenceConflict (name : String)
deriving DecidableEq

/-- The Git data API as consumed by the service, generically over a
server state `σ`. The last argument of `refEdit` is the `force` flag of
the reference update. -/
structure GitApi (σ : Type) where
  getGitRef : σ → String → Except GitErr GitRefObj × σ
  getGitCommit : σ → Nat → Except GitErr GitCommitObj × σ
  createGitBlob : σ → String → String → Except GitErr GitBlobObj × σ
  createGitTree : σ → List TreeEntry → Nat → Except GitErr GitTreeObj × σ
  createGitCommit : σ → String → Nat → List Nat → Except GitErr GitCommitObj × σ
  refEdit : σ → String → Nat → Bool → Except GitErr Unit × σ

/-- One issued Git-data call together with the server's response. -/
inductive GitEvent
  | getGitRef (name : String) (resp : Except GitErr GitRefObj)
  | getGitCommit (sha : Nat) (resp : Except GitErr GitCommitObj)
  | createGitBlob (content encoding : String) (resp : Except GitErr GitBlobObj)
  | createGitTree (entries : List TreeEntry) (base : Nat) (resp : Except GitErr GitTreeObj)
  | createGitCommit (message : String) (tree : Nat) (parents : List Nat)
      (resp : Except GitErr GitCommitObj)
  | refEdit (name : String) (sha : Nat) (force : Bool) (resp : Except GitErr Unit)
deriving DecidableEq

/-- Whether an event is a reference update. -/
def GitEvent.isRefEdit : GitEvent → Bool
  | refEdit _ _ _ _ => true
  | _ => false

/-- The dict returned by `update_file_using_git_api` (lines 387-394). -/
structure GitPlumbingResult where
  commit_sha : Nat
  commit_message : String
  tree_sha : Nat
  blob_sha : Nat
  branch : String
  file_path : String
deriving DecidableEq

/-- `update_file_using_git_api` (lines 335-394): resolve the branch ref,
load its commit, create a blob from the content, create a single-entry
tree (mode `100644`, type `blob`) layered onto the base commit's tree,
create a commit with that tree and the base commit as sole parent, and
update the branch reference to it. PyGithub's `ref.edit(sha=...)`
defaults to `force=False`, so the final call passes `false`. The run
yields the outcome, the final server state, and the issued calls in
order; an exception at any step aborts the remainder. -/
def update_file_using_git_api {σ : Type} (api : GitApi σ) (s0 : σ)
    (branch_name file_path file_content commit_message : String) :
    Except GitErr GitPlumbingResult × σ × List GitEvent :=
  let refName := "heads/" ++ branch_name
  match api.getGitRef s0 refName with
  | (.error e, s1) => (.error e, s1, [.getGitRef refName (.error e)])
  | (.ok ref, s1) =>
    match api.getGitCommit s1 ref.sha with
    | (.error e, s2) =>
        (.error e, s2,
         [.getGitRef refName (.ok ref), .getGitCommit ref.sha (.error e)])
    | (.ok base_commit, s2) =>
      match api.createGitBlob s2 file_content "utf-8" with
      | (.error e, s3) =>
          (.error e, s3,
           [.getGitRef refName (.ok ref), .getGitCommit ref.sha (.ok base_commit),
            .createGitBlob file_content "utf-8" (.error e)])
      | (.ok blob, s3) =>
        let tree_element : TreeEntry :=
          { path := file_path, mode := "100644", type := "blob", sha := blob.sha }
        match api.createGitTree s3 [tree_element] base_commit.tree with
        | (.error e, s4) =>
            (.error e, s4,
             [.getGitRef refName (.ok ref), .getGitCommit ref.sha (.ok base_commit),
              .createGitBlob file_content "utf-8" (.ok blob),
              .createGitTree [tree_element] base_commit.tree (.error e)])
        | (.ok tree, s4) =>
          match api.createGitCommit s4 commit_message tree.sha [base_commit.sha] with
          | (.error e, s5) =>
              (.error e, s5,
               [.getGitRef refName (.ok ref), .getGitCommit ref.sha (.ok base_commit),
                .createGitBlob file_content "utf-8" (.ok blob),
                .createGitTree [tree_element] base_commit.tree (.ok tree),
                .createGitCommit commit_message tree.sha [base_commit.sha] (.error e)])
          | (.ok commit, s5) =>
            match api.refEdit s5 refName commit.sha false with
            | (.error e, s6) =>
                (.error e, s6,
                 [.getGitRef refName (.ok ref), .getGitCommit ref.sha (.ok base_commit),
                  .createGitBlob file_content "utf-8" (.ok blob),
                  .createGitTree [tree_element] base_commit.tree (.ok tree),
                  .createGitCommit commit_message tree.sha [base_commit.sha] (.ok commit),
                  .refEdit refName commit.sha false (.error e)])
            | (.ok _, s6) =>
                (.ok { commit_sha := commit.sha
                       commit_message := commit.message
                       tree_sha := tree.sha
                       blob_sha := blob.sha
                       branch := branch_name
                       file_path := file_path }, s6,
                 [.getGitRef refName (.ok ref), .getGitCommit ref.sha (.ok base_commit),
                  .createGitBlob file_content "utf-8" (.ok blob),
                  .createGitTree [tree_element] base_commit.tree (.ok tree),
                  .createGitCommit commit_message tree.sha [base_commit.sha] (.ok commit),
                  .refEdit refName commit.sha false (.ok ())])

/-! ## A model of GitHub's Git data store -/

/-- A stored blob: object id and raw content. -/
structure BlobData where
  sha : Nat
  content : String
deriving DecidableEq

/-- A stored tree, kept in flattened form: the full listing after the
server-side merge of the overlay onto the base tree. -/
structure TreeData where
  sha : Nat
  entries : List TreeEntry
deriving DecidableEq

/-- The server's Git data store. Fresh objects receive id `nextSha`. -/
structure GitState where
  blobs : List BlobData
  trees : List TreeData
  commits : List GitCommitObj
  refs : List (String × Nat)
  nextSha : Nat
deriving DecidableEq

/-- Look up a blob by object id. -/
def findBlob (st : GitState) (sha : Nat) : Option BlobData :=
  st.blobs.find? (fun b => b.sha == sha)

/-- Look up a tree by object id. -/
def findTree (st : GitState) (sha : Nat) : Option TreeData :=
  st.trees.find? (fun t => t.sha == sha)

/-- Look up a commit by object id. -/
def findCommit (st : GitState) (sha : Nat) : Option GitCommitObj :=
  st.commits.find? (fun c => c.sha == sha)

/-- Look up the commit a ref points at. -/
def findRef (st : GitState) (name : String) : Option Nat :=
  (st.refs.find? (fun pr => pr.1 == name)).map (fun pr => pr.2)

/-- The entry of a flattened tree at a path. -/
def entryFor (entries : List TreeEntry) (path : String) : Option TreeEntry :=
  entries.find? (fun e => e.path == path)

/-- Server-side layering of an overlay onto a base tree: overlay entries
shadow base entries at the same path; all other base entries persist. -/
def mergeTreeEntries (base overlay : List TreeEntry) : List TreeEntry :=
  overlay ++ base.filter (fun e => overlay.all (fun o => o.path != e.path))

/-- Fuel-bounded ancestry in the commit graph: `anc` is an ancestor of
(or equal to) `desc` following parent edges. -/
def isAncestor (st : GitState) : Nat → Nat → Nat → Bool
  | 0, _, _ => false
  | fuel + 1, anc, desc =>
      anc == desc ||
      match findCommit st desc with
      | some c => c.parents.any (fun p => isAncestor st fuel anc p)
      | none => false

/-- `GET /git/ref/{name}`. -/
def serverGetRef (st : GitState) (name : String) : Except GitErr GitRefObj × GitState :=
  match findRef st name with
  | some sha => (.ok ⟨sha⟩, st)
  | none => (.error (.refNotFound name), st)

/-- `GET /git/commits/{sha}`. -/
def serverGetCommit (st : GitState) (sha : Nat) : Except GitErr GitCommitObj × GitState :=
  match findCommit st sha with
  | some c => (.ok c, st)
  | none => (.error (.commitNotFound sha), st)

/-- `POST /git/blobs`: store the content under a fresh id. -/
def serverCreateBlob (st : GitState) (content : String) (_encoding : String) :
    Except GitErr GitBlobObj × GitState :=
  (.ok ⟨st.nextSha⟩,
   { st with blobs := ⟨st.nextSha, content⟩ :: st.blobs, nextSha := st.nextSha + 1 })

/-- `POST /git/trees` with a base tree: merge the overlay onto the base
listing and store the flattened result under a fresh id. -/
def serverCreateTree (st : GitState) (entries : List TreeEntry) (base : Nat) :
    Except GitErr GitTreeObj × GitState :=
  match findTree st base with
  | none => (.error (.treeNotFound base), st)
  | some bt =>
      (.ok ⟨st.nextSha⟩,
       { st with trees := ⟨st.nextSha, mergeTreeEntries bt.entries entries⟩ :: st.trees,
                 nextSha := st.nextSha + 1 })

/-- `POST /git/commits`: store a commit with the given tree and parents
under a fresh id. -/
def serverCreateCommit (st : GitState) (message : String) (tree : Nat) (parents : List Nat) :
    Except GitErr GitCommitObj × GitState :=
  (.ok ⟨st.nextSha, tree, parents, message⟩,
   { st with commits := ⟨st.nextSha, tree, parents, message⟩ :: st.commits,
             nextSha := st.nextSha + 1 })

/-- `PATCH /git/refs/{name}`: with `force = false` the move is accepted
only when the current target is an ancestor of the new one
(fast-forward); otherwise the update is rejected as a conflict. -/
def serverRefEdit (st : GitState) (name : String) (sha : Nat) (force : Bool) :
    Except GitErr Unit × GitState :=
  match findRef st name with
  | none => (.error (.refNotFound name), st)
  | some cur =>
      if force || isAncestor st (st.commits.length + 1) cur sha then
        (.ok (),
         { st with refs := st.refs.map (fun pr => if pr.1 == name then (pr.1, sha) else pr) })
      else
        (.error (.referenceConflict name), st)

/-- GitHub's Git data store instantiating the interface. -/
def serverApi : GitApi GitState :=
  { getGitRef := serverGetRef
    getGitCommit := serverGetCommit
    createGitBlob := serverCreateBlob
    createGitTree := serverCreateTree
    createGitCommit := serverCreateCommit
    refEdit := serverRefEdit }

/-! ## Theorems on the Git-plumbing path (C2, then C1) -/

/-- Every run of the plumbing write, against any server, issues at most
one reference update; any reference-update event carries `force = false`
and, on an error response, that error is the run's result. -/
theorem update_run_cases {σ : Type} (api : GitApi σ) (s : σ)
    (branch_name file_path file_content commit_message : String) :
    ∃ res s' evs,
      update_file_using_git_api api s branch_name file_path file_content commit_message =
        (res, s', evs) ∧
      evs.countP (fun ev => GitEvent.isRefEdit ev) ≤ 1 ∧
      ∀ n h f r, GitEvent.refEdit n h f r ∈ evs →
        f = false ∧ ∀ e, r = .error e → res = .error e := by
  rcases h1 : api.getGitRef s ("heads/" ++ branch_name) with ⟨e1 | ref, s1⟩
  · refine ⟨.error e1, s1, [.getGitRef ("heads/" ++ branch_name) (.error e1)], ?_, ?_, ?_⟩
    · simp [update_file_using_git_api, h1]
    · simp [List.countP_cons, List.countP_nil, GitEvent.isRefEdit]
    · intro n h f r hr
      simp at hr
  rcases h2 : api.getGitCommit s1 ref.sha with ⟨e2 | base_commit, s2⟩
  · refine ⟨.error e2, s2,
      [.getGitRef ("heads/" ++ branch_name) (.ok ref), .getGitCommit ref.sha (.error e2)],
      ?_, ?_, ?_⟩
    · simp [update_file_using_git_api, h1, h2]
    · simp [List.countP_cons, List.countP_nil, GitEvent.isRefEdit]
    · intro n h f r hr
      simp at hr
  rcases h3 : api.createGitBlob s2 file_content "utf-8" with ⟨e3 | blob, s3⟩
  · refine ⟨.error e3, s3,
      [.getGitRef ("heads/" ++ branch_name) (.ok ref), .getGitCommit ref.sha (.ok base_commit),
       .createGitBlob file_content "utf-8" (.error e3)], ?_, ?_, ?_⟩
    · simp [update_file_using_git_api, h1, h2, h3]
    · simp [List.countP_cons, List.countP_nil, GitEvent.isRefEdit]
    · intro n h f r hr
      simp at hr
  rcases h4 : api.createGitTree s3
      [{ path := file_path, mode := "100644", type := "blob", sha := blob.sha }]
      base_commit.tree with ⟨e4 | tree, s4⟩
  · refine ⟨.error e4, s4,
      [.getGitRef ("heads/" ++ branch_name) (.ok ref), .getGitCommit ref.sha (.ok base_commit),
       .createGitBlob file_content "utf-8" (.ok blob),
       .createGitTree [{ path := file_path, mode := "100644", type := "blob", sha := blob.sha }]
         base_commit.tree (.error e4)], ?_, ?_, ?_⟩
    · simp [update_file_using_git_api, h1, h2, h3, h4]
    · simp [List.countP_cons, List.countP_nil, GitEvent.isRefEdit]
    · intro n h f r hr
      simp at hr
  rcases h5 : api.createGitCommit s4 commit_message tree.sha [base_commit.sha]
    with ⟨e5 | commit, s5⟩
  · refine ⟨.error e5, s5,
      [.getGitRef ("heads/" ++ branch_name) (.ok ref), .getGitCommit ref.sha (.ok base_commit),
       .createGitBlob file_content "utf-8" (.ok blob),
       .createGitTree [{ path := file_path, mode := "100644", type := "blob", sha := blob.sha }]
         base_commit.tree (.ok tree),
       .createGitCommit commit_message tree.sha [base_commit.sha] (.error e5)], ?_, ?_, ?_⟩
    · simp [update_file_using_git_api, h1, h2, h3, h4, h5]
    · simp [List.countP_cons, List.countP_nil, GitEvent.isRefEdit]
    · intro n h f r hr
      simp at hr
  rcases h6 : api.refEdit s5 ("heads/" ++ branch_name) commit.sha false with ⟨e6 | u, s6⟩
  · refine ⟨.error e6, s6,
      [.getGitRef ("heads/" ++ branch_name) (.ok ref), .getGitCommit ref.sha (.ok base_commit),
       .createGitBlob file_content "utf-8" (.ok blob),
       .createGitTree [{ path := file_path, mode := "100644", type := "blob", sha := blob.sha }]
         base_commit.tree (.ok tree),
       .createGitCommit commit_message tree.sha [base_commit.sha] (.ok commit),
       .refEdit ("heads/" ++ branch_name) commit.sha false (.error e6)], ?_, ?_, ?_⟩
    · simp [update_file_using_git_api, h1, h2, h3, h4, h5, h6]
    · simp [List.countP_cons, List.countP_nil, GitEvent.isRefEdit]
    · intro n h f r hr
      simp at hr
      obtain ⟨-, -, hf, hrr⟩ := hr
      refine ⟨hf, fun e' he' => ?_⟩
      rw [hrr] at he'
      rw [Except.error.inj he']
  · refine ⟨.ok
      { commit_sha := commit.sha, commit_message := commit.message, tree_sha := tree.sha,
        blob_sha := blob.sha, branch := branch_name, file_path := file_path }, s6,
      [.getGitRef ("heads/" ++ branch_name) (.ok ref), .getGitCommit ref.sha (.ok base_commit),
       .createGitBlob file_content "utf-8" (.ok blob),
       .createGitTree [{ path := file_path, mode := "100644", type := "blob", sha := blob.sha }]
         base_commit.tree (.ok tree),
       .createGitCommit commit_message tree.sha [base_commit.sha] (.ok commit),
       .refEdit ("heads/" ++ branch_name) commit.sha false (.ok ())], ?_, ?_, ?_⟩
    · simp [update_file_using_git_api, h1, h2, h3, h4, h5, h6]
    · simp [List.countP_cons, List.countP_nil, GitEvent.isRefEdit]
    · intro n h f r hr
      simp at hr
      obtain ⟨-, -, hf, hrr⟩ := hr
      refine ⟨hf, fun e' he' => ?_⟩
      rw [hrr] at he'
      exact absurd he' (by simp)

/-- C2: the final branch-reference update of the Git-plumbing write is a
conditional move and is never retried. Against any server: at most one
reference update is issued per run, every issued reference update
carries `force = false`, and an error response to the reference update
becomes the run's result (no retry, the failure is surfaced). In the
Git data store model, a `force = false` update whose new target is not
fast-forwardable is rejected with `referenceConflict`. -/
theorem git_plumbing_conditional_no_retry {σ : Type} (api : GitApi σ) (s : σ)
    (branch_name file_path file_content commit_message : String) :
    ((update_file_using_git_api api s branch_name file_path file_content
        commit_message).2.2.countP (fun ev => GitEvent.isRefEdit ev) ≤ 1) ∧
    (∀ n h f r, GitEvent.refEdit n h f r ∈
        (update_file_using_git_api api s branch_name file_path file_content commit_message).2.2 →
      f = false) ∧
    (∀ n h f e, GitEvent.refEdit n h f (.error e) ∈
        (update_file_using_git_api api s branch_name file_path file_content commit_message).2.2 →
      (update_file_using_git_api api s branch_name file_path file_content commit_message).1 =
        .error e) ∧
    (∀ (st : GitState) (name : String) (sha cur : Nat),
      findRef st name = some cur →
      isAncestor st (st.commits.length + 1) cur sha = false →
      (serverApi.refEdit st name sha false).1 = .error (.referenceConflict name)) := by
  obtain ⟨res, s', evs, hrun, hcount, hprop⟩ :=
    update_run_cases api s branch_name file_path file_content commit_message
  refine ⟨?_, ?_, ?_, ?_⟩
  · rw [hrun]
    exact hcount
  · intro n h f r hr
    rw [hrun] at hr
    exact (hprop n h f r hr).1
  · intro n h f e hr
    rw [hrun] at hr
    rw [hrun]
    exact (hprop n h f (.error e) hr).2 e rfl
  · intro st name sha cur hrf hanc
    simp [serverApi, serverRefEdit, hrf, hanc]

/-- A server on which the reference update is rejected (a concurrent
writer moved the branch between the base-commit read and the update). -/
def conflictApi : GitApi Unit :=
  { getGitRef := fun s _ => (.ok ⟨1⟩, s)
    getGitCommit := fun s _ => (.ok ⟨1, 0, [], "init"⟩, s)
    createGitBlob := fun s _ _ => (.ok ⟨2⟩, s)
    createGitTree := fun s _ _ => (.ok ⟨3⟩, s)
    createGitCommit := fun s m t ps => (.ok ⟨4, t, ps, m⟩, s)
    refEdit := fun s n _ _ => (.error (.referenceConflict n), s) }

/-- Witness for C2: on the rejecting server the run's single reference
update fails and the conflict is the run's result. -/
theorem git_plumbing_conditional_no_retry_witness :
    GitEvent.refEdit "heads/main" 4 false (.error (.referenceConflict "heads/main")) ∈
      (update_file_using_git_api conflictApi () "main" "f.txt" "x" "m").2.2 ∧
    (update_file_using_git_api conflictApi () "main" "f.txt" "x" "m").1 =
      .error (.referenceConflict "heads/main") := by
  refine ⟨by decide, ?_⟩
  exact (git_plumbing_conditional_no_retry conflictApi () "main" "f.txt" "x" "m").2.2.1
    "heads/main" 4 false (.referenceConflict "heads/main") (by decide)

/-! ## Chain integrity of the plumbing write against the data store (C1) -/

/-- One ancestry step: if `desc`'s commit lists `anc` among its parents,
`anc` is an ancestor of `desc` (given any spare fuel). -/
theorem isAncestor_step (st : GitState) (fuel anc desc : Nat) (c : GitCommitObj)
    (hfuel : 1 ≤ fuel) (hc : findCommit st desc = some c) (hp : anc ∈ c.parents) :
    isAncestor st (fuel + 1) anc desc = true := by
  obtain ⟨f, rfl⟩ : ∃ f, fuel = f + 1 := ⟨fuel - 1, by omega⟩
  have hunfold : isAncestor st (f + 1 + 1) anc desc =
      (anc == desc ||
        match findCommit st desc with
        | some c => c.parents.any (fun p => isAncestor st (f + 1) anc p)
        | none => false) := rfl
  rw [hunfold, hc]
  simp only [Bool.or_eq_true, List.any_eq_true]
  right
  refine ⟨anc, hp, ?_⟩
  have hunfold2 : isAncestor st (f + 1) anc anc =
      (anc == anc ||
        match findCommit st anc with
        | some c => c.parents.any (fun p => isAncestor st f anc p)
        | none => false) := rfl
  rw [hunfold2]
  simp

/-- Dropping the entries at one path does not affect a lookup at a
different path. -/
theorem find?_filter_ne_path (l : List TreeEntry) (p q : String) (hq : q ≠ p) :
    (l.filter (fun x => p != x.path)).find? (fun x => x.path == q) =
      l.find? (fun x => x.path == q) := by
  induction l with
  | nil => rfl
  | cons b bs ih =>
    by_cases hb : p = b.path
    · have hpq : (b.path == q) = false :=
        beq_eq_false_iff_ne.mpr (by rw [← hb]; exact Ne.symm hq)
      have hcond : (p != b.path) = false := by simp [hb]
      simp [List.filter_cons, hcond, List.find?, hpq, ih]
    · have hcond : (p != b.path) = true := by simp [hb]
      cases hbq : (b.path == q) with
      | false => simp [List.filter_cons, hcond, List.find?, hbq, ih]
      | true => simp [List.filter_cons, hcond, List.find?, hbq]

/-- In a merged tree with singleton overlay, the overlay entry is found
at its path. -/
theorem entryFor_merge_singleton_same (base : List TreeEntry) (e : TreeEntry) :
    entryFor (mergeTreeEntries base [e]) e.path = some e := by
  unfold entryFor mergeTreeEntries
  rw [List.singleton_append]
  simp [List.find?]

/-- In a merged tree with singleton overlay, lookups at every other path
read the base tree. -/
theorem entryFor_merge_singleton_other (base : List TreeEntry) (e : TreeEntry) (q : String)
    (hq : q ≠ e.path) :
    entryFor (mergeTreeEntries base [e]) q = entryFor base q := by
  have hqe : (e.path == q) = false := beq_eq_false_iff_ne.mpr (Ne.symm hq)
  have hall : (fun x : TreeEntry => [e].all (fun o => o.path != x.path)) =
      (fun x : TreeEntry => e.path != x.path) := by
    funext x
    simp
  unfold entryFor mergeTreeEntries
  rw [List.singleton_append, hall]
  simp only [List.find?, hqe]
  exact find?_filter_ne_path base e.path q hq

/-- Conditionally overwriting the value at a present key makes the
lookup read the new value. -/
theorem find?_map_set_ref (refs : List (String × Nat)) (name : String) (sha : Nat)
    (h : (refs.find? (fun pr => pr.1 == name)).isSome = true) :
    ((refs.map (fun pr => if pr.1 == name then (pr.1, sha) else pr)).find?
        (fun pr => pr.1 == name)).map (fun pr => pr.2) = some sha := by
  induction refs with
  | nil => simp at h
  | cons b bs ih =>
    cases hb : (b.1 == name) with
    | true =>
      have hmap : (b :: bs).map (fun pr => if pr.1 == name then (pr.1, sha) else pr) =
          (b.1, sha) :: bs.map (fun pr => if pr.1 == name then (pr.1, sha) else pr) := by
        rw [List.map_cons, if_pos hb]
      rw [hmap]
      have hfind : List.find? (fun pr => pr.1 == name)
          ((b.1, sha) :: bs.map (fun pr => if pr.1 == name then (pr.1, sha) else pr)) =
          some (b.1, sha) := by
        simp [List.find?, hb]
      rw [hfind]
      rfl
    | false =>
      have h' : (bs.find? (fun pr => pr.1 == name)).isSome = true := by
        simpa [List.find?, hb] using h
      have hmap : (b :: bs).map (fun pr => if pr.1 == name then (pr.1, sha) else pr) =
          b :: bs.map (fun pr => if pr.1 == name then (pr.1, sha) else pr) := by
        rw [List.map_cons, if_neg (by simp [hb])]
      rw [hmap]
      have hskip : List.find? (fun pr => pr.1 == name)
          (b :: bs.map (fun pr => if pr.1 == name then (pr.1, sha) else pr)) =
          List.find? (fun pr => pr.1 == name)
            (bs.map (fun pr => if pr.1 == name then (pr.1, sha) else pr)) := by
        simp only [List.find?, hb]
      rw [hskip]
      exact ih h' 

/-- The full chain produced by one plumbing write against the data
store, starting from base commit `baseSha` whose tree listing is
`baseEntries`: the run succeeds returning exactly the new blob, tree and
commit ids (plus branch and path); in the final store the blob holds the
file content; the new tree holds the new entry at the file's path and
the base listing everywhere else; the new commit points at the new tree
with the base commit as sole parent and the caller's message; and the
branch ref points at the new commit. -/
def ChainIntegrity (st : GitState)
    (branch_name file_path file_content commit_message : String)
    (baseSha : Nat) (baseEntries : List TreeEntry) : Prop :=
  ∃ B T C : Nat,
    (update_file_using_git_api serverApi st branch_name file_path file_content
        commit_message).1 =
      .ok { commit_sha := C, commit_message := commit_message, tree_sha := T, blob_sha := B,
            branch := branch_name, file_path := file_path } ∧
    findBlob (update_file_using_git_api serverApi st branch_name file_path file_content
        commit_message).2.1 B = some ⟨B, file_content⟩ ∧
    (∃ td : TreeData,
      findTree (update_file_using_git_api serverApi st branch_name file_path file_content
          commit_message).2.1 T = some td ∧
      entryFor td.entries file_path =
        some { path := file_path, mode := "100644", type := "blob", sha := B } ∧
      ∀ q, q ≠ file_path → entryFor td.entries q = entryFor baseEntries q) ∧
    (∃ c : GitCommitObj,
      findCommit (update_file_using_git_api serverApi st branch_name file_path file_content
          commit_message).2.1 C = some c ∧
      c.tree = T ∧ c.parents = [baseSha] ∧ c.message = commit_message) ∧
    findRef (update_file_using_git_api serverApi st branch_name file_path file_content
        commit_message).2.1 ("heads/" ++ branch_name) = some C

/-- C1: on any store in which the branch ref points at commit `baseSha`
with tree listing `baseTree.entries`, the plumbing write produces the
full blob → tree → commit → ref chain and returns exactly those object
ids. -/
theorem git_plumbing_chain_integrity (st : GitState)
    (branch_name file_path file_content commit_message : String)
    (baseSha : Nat) (baseCommit : GitCommitObj) (baseTree : TreeData)
    (href : findRef st ("heads/" ++ branch_name) = some baseSha)
    (hcommit : findCommit st baseSha = some baseCommit)
    (hsha : baseCommit.sha = baseSha)
    (htree : findTree st baseCommit.tree = some baseTree) :
    ChainIntegrity st branch_name file_path file_content commit_message baseSha
      baseTree.entries := by
  have e1 : serverApi.getGitRef st ("heads/" ++ branch_name) = (.ok ⟨baseSha⟩, st) := by
    simp [serverApi, serverGetRef, href]
  have e2 : serverApi.getGitCommit st baseSha = (.ok baseCommit, st) := by
    simp [serverApi, serverGetCommit, hcommit]
  set stB : GitState :=
    { st with blobs := ⟨st.nextSha, file_content⟩ :: st.blobs, nextSha := st.nextSha + 1 }
    with hstB
  have e3 : serverApi.createGitBlob st file_content "utf-8" = (.ok ⟨st.nextSha⟩, stB) := by
    rw [hstB]
    rfl
  set stT : GitState :=
    { stB with
        trees := ⟨st.nextSha + 1, mergeTreeEntries baseTree.entries
          [{ path := file_path, mode := "100644", type := "blob", sha := st.nextSha }]⟩ ::
          stB.trees
        nextSha := st.nextSha + 2 }
    with hstT
  have e4 : serverApi.createGitTree stB
      [{ path := file_path, mode := "100644", type := "blob", sha := st.nextSha }]
      baseCommit.tree = (.ok ⟨st.nextSha + 1⟩, stT) := by
    show serverCreateTree stB _ baseCommit.tree = _
    have htreeB : findTree stB baseCommit.tree = some baseTree := htree
    unfold serverCreateTree
    rw [htreeB]
  set stC : GitState :=
    { stT with
        commits := ⟨st.nextSha + 2, st.nextSha + 1, [baseCommit.sha], commit_message⟩ ::
          stT.commits
        nextSha := st.nextSha + 3 }
    with hstC
  have e5 : serverApi.createGitCommit stT commit_message (st.nextSha + 1) [baseCommit.sha] =
      (.ok ⟨st.nextSha + 2, st.nextSha + 1, [baseCommit.sha], commit_message⟩, stC) := by
    rw [hstC, hstT]
    rfl
  set stF : GitState :=
    { stC with
        refs := stC.refs.map (fun pr =>
          if pr.1 == ("heads/" ++ branch_name) then (pr.1, st.nextSha + 2) else pr) }
    with hstF
  have hfc : findCommit stC (st.nextSha + 2) =
      some ⟨st.nextSha + 2, st.nextSha + 1, [baseCommit.sha], commit_message⟩ := by
    rw [hstC]
    simp [findCommit, List.find?]
  have hlen : stC.commits.length + 1 = (st.commits.length + 1) + 1 := by
    simp [hstC, hstT, hstB]
  have hanc : isAncestor stC (stC.commits.length + 1) baseSha (st.nextSha + 2) = true := by
    rw [hlen]
    exact isAncestor_step stC (st.commits.length + 1) baseSha (st.nextSha + 2)
      ⟨st.nextSha + 2, st.nextSha + 1, [baseCommit.sha], commit_message⟩
      (by omega) hfc (by simp [hsha])
  have e6 : serverApi.refEdit stC ("heads/" ++ branch_name) (st.nextSha + 2) false =
      (.ok (), stF) := by
    show serverRefEdit stC _ _ _ = _
    have hrefC : findRef stC ("heads/" ++ branch_name) = some baseSha := href
    simp only [serverRefEdit, hrefC, Bool.false_or, hanc]
    simp [hstF]
  have hrun : update_file_using_git_api serverApi st branch_name file_path file_content
      commit_message =
      (.ok { commit_sha := st.nextSha + 2, commit_message := commit_message,
             tree_sha := st.nextSha + 1, blob_sha := st.nextSha,
             branch := branch_name, file_path := file_path },
       stF,
       [.getGitRef ("heads/" ++ branch_name) (.ok ⟨baseSha⟩),
        .getGitCommit baseSha (.ok baseCommit),
        .createGitBlob file_content "utf-8" (.ok ⟨st.nextSha⟩),
        .createGitTree
          [{ path := file_path, mode := "100644", type := "blob", sha := st.nextSha }]
          baseCommit.tree (.ok ⟨st.nextSha + 1⟩),
        .createGitCommit commit_message (st.nextSha + 1) [baseCommit.sha]
          (.ok ⟨st.nextSha + 2, st.nextSha + 1, [baseCommit.sha], commit_message⟩),
        .refEdit ("heads/" ++ branch_name) (st.nextSha + 2) false (.ok ())]) := by
    simp only [update_file_using_git_api, e1, e2, e3, e4, e5, e6]
  refine ⟨st.nextSha, st.nextSha + 1, st.nextSha + 2, ?_, ?_, ?_, ?_, ?_⟩
  · rw [hrun]
  · rw [hrun]
    simp [hstF, hstC, hstT, hstB, findBlob, List.find?]
  · refine ⟨⟨st.nextSha + 1, mergeTreeEntries baseTree.entries
      [{ path := file_path, mode := "100644", type := "blob", sha := st.nextSha }]⟩,
      ?_, ?_, ?_⟩
    · rw [hrun]
      simp [hstF, hstC, hstT, findTree, List.find?]
    · exact entryFor_merge_singleton_same baseTree.entries
        { path := file_path, mode := "100644", type := "blob", sha := st.nextSha }
    · intro q hq
      exact entryFor_merge_singleton_other baseTree.entries
        { path := file_path, mode := "100644", type := "blob", sha := st.nextSha } q hq
  · refine ⟨⟨st.nextSha + 2, st.nextSha + 1, [baseCommit.sha], commit_message⟩,
      ?_, rfl, ?_, rfl⟩
    · rw [hrun]
      rw [hstF]
      simp [hstC, findCommit, List.find?]
    · simp [hsha]
  · rw [hrun]
    have h0 : (st.refs.find? (fun pr => pr.1 == ("heads/" ++ branch_name))).isSome = true := by
      unfold findRef at href
      rcases hf : st.refs.find? (fun pr => pr.1 == ("heads/" ++ branch_name)) with _ | pr
      · rw [hf] at href
        simp at href
      · simp [hf]
    have hset := find?_map_set_ref st.refs ("heads/" ++ branch_name) (st.nextSha + 2) h0
    simpa [findRef, hstF, hstC, hstT, hstB] using hset

/-- A one-commit store: `heads/main` points at commit 1 whose tree 0
lists one file. -/
def initialState : GitState :=
  { blobs := []
    trees := [⟨0, [⟨"old.txt", "100644", "blob", 99⟩]⟩]
    commits := [⟨1, 0, [], "init"⟩]
    refs := [("heads/main", 1)]
    nextSha := 2 }

/-- Witness for C1: the chain produced by writing `new.txt` on `main` in
the one-commit store. -/
theorem git_plumbing_chain_integrity_witness :
    findRef initialState ("heads/" ++ "main") = some 1 ∧
    findCommit initialState 1 = some ⟨1, 0, [], "init"⟩ ∧
    findTree initialState 0 = some ⟨0, [⟨"old.txt", "100644", "blob", 99⟩]⟩ ∧
    ChainIntegrity initialState "main" "new.txt" "hello" "add file" 1
      [⟨"old.txt", "100644", "blob", 99⟩] := by
  refine ⟨by decide, by decide, by decide, ?_⟩
  exact git_plumbing_chain_integrity initialState "main" "new.txt" "hello" "add file"
    1 ⟨1, 0, [], "init"⟩ ⟨0, [⟨"old.txt", "100644", "blob", 99⟩]⟩
    (by decide) (by decide) (by decide) (by decide)

end SampleMCP
